import Mathlib

/-!
# X.509 extension construction and formatting

A shallow embedding of `OpenSSL/crypto/x509ext.c` (pyOpenSSL's X509Extension
module): the constructor `crypto_X509Extension_New`, the accessors
`crypto_X509Extension_get_critical` / `crypto_X509Extension_get_data`, the
deallocator, and the dual-path string formatter with its NUL-safe
subjectAltName printer `crypto_X509Extension_str_subjectAltName`.

Byte strings are `List Nat`; the `malloc`ed C buffer built by the constructor
is modelled as a byte-addressed memory `Nat → Nat` with explicit `strcpy`
writes and a NUL-terminated read, so that the critical-marker splicing is
reasoned about at the level the C code performs it.  External OpenSSL
routines (`X509V3_EXT_get`, the ASN.1 `d2i` decoders, `GENERAL_NAME_print`,
`X509V3_EXT_print`) are parameters of the embedded functions; the one
library routine whose behaviour the specification pins down,
`X509V3_EXT_nconf`, is modelled from the spec.
-/

namespace X509Ext

/-- The bytes of a textual literal (ASCII code points). -/
def strBytes (s : String) : List Nat := s.data.map Char.toNat

/-- A byte-addressed memory region (the `malloc`ed buffer of
`crypto_X509Extension_New`). -/
def Mem : Type := Nat → Nat

/-- Write the bytes `s` sequentially into memory starting at offset `off`. -/
def writeBytes (m : Mem) (off : Nat) : List Nat → Mem
  | [] => m
  | b :: bs => writeBytes (fun i => if i = off then b else m i) (off + 1) bs

/-- C `strcpy` into the buffer at `off`: copies the characters of `s` and the
terminating NUL byte. -/
def strcpy (m : Mem) (off : Nat) (s : List Nat) : Mem :=
  writeBytes m off (s ++ [0])

/-- Read a NUL-terminated C string starting at `off`; `fuel` bounds the scan
(the buffer size in the embedding). -/
def readCStr (m : Mem) (off : Nat) : Nat → List Nat
  | 0 => []
  | fuel + 1 => if m off = 0 then [] else m off :: readCStr m (off + 1) fuel

/-- The literal marker `"critical,"` spliced in front of the value
(x509ext.c lines 149-156). -/
def criticalMarker : List Nat := strBytes "critical,"

/-- The buffer contents produced by lines 149-159 of
`crypto_X509Extension_New`: `strcpy` the marker then the value at offset 9
when `critical` is nonzero, otherwise `strcpy` the value alone. -/
def buildValueWithCritical (m0 : Mem) (critical : Int) (value : List Nat) : Mem :=
  if critical ≠ 0 then
    strcpy (strcpy m0 0 criticalMarker) criticalMarker.length value
  else
    strcpy m0 0 value

/-- The `X509_EXTENSION` structure produced by the library: the OID (as its
numeric NID), the critical bit, and the DER-encoded inner value octets. -/
structure EncodedExt where
  nid : Nat
  critical : Bool
  value : List Nat
deriving DecidableEq

/-- The Python-level object: a possibly-NULL pointer to the encoded
structure, and the `dealloc` ownership flag. -/
structure X509ExtensionObj where
  x509_extension : Option EncodedExt
  dealloc : Bool
deriving DecidableEq

/-- The `X509V3_CTX` evaluation context: optional subject and issuer
certificate handles (no configuration database is attached). -/
structure X509V3_CTX where
  subject_cert : Option Nat
  issuer_cert : Option Nat
deriving DecidableEq

/-- Library accessor `X509_EXTENSION_get_critical`: the critical bit of the
encoded structure, as the C int OpenSSL returns. -/
def X509_EXTENSION_get_critical (e : EncodedExt) : Int :=
  if e.critical then 1 else 0

/-- Library accessor `X509_EXTENSION_get_data`: the stored
`ASN1_OCTET_STRING` payload octets. -/
def X509_EXTENSION_get_data (e : EncodedExt) : List Nat := e.value

/-- `PyBytes_FromStringAndSize`: a length-exact read of `len` bytes (it does
not stop at NUL bytes). -/
def PyBytes_FromStringAndSize (s : List Nat) (len : Nat) : List Nat :=
  s.take len

/-- `crypto_X509Extension_get_critical` (x509ext.c lines 22-29): dereference
the stored pointer and return `X509_EXTENSION_get_critical` of it. -/
def crypto_X509Extension_get_critical (self : X509ExtensionObj) : Option Int :=
  self.x509_extension.map X509_EXTENSION_get_critical

/-- `crypto_X509Extension_get_data` (x509ext.c lines 60-72):
`PyBytes_FromStringAndSize(data->data, data->length)` on the stored
`ASN1_OCTET_STRING`. -/
def crypto_X509Extension_get_data (self : X509ExtensionObj) : Option (List Nat) :=
  self.x509_extension.map fun e =>
    PyBytes_FromStringAndSize (X509_EXTENSION_get_data e)
      (X509_EXTENSION_get_data e).length

/-- Modelled from the spec: the library routine `X509V3_EXT_nconf` is not in
the repository; per §4.2 the criticality marker is "embedded as syntax
recognized by the per-OID value parser", so the parser strips a leading
`critical,` marker and sets the critical bit, resolves the type name to its
OID via the registry (`lookupNid`), and runs that OID's value-syntax
interpreter (`interp`, which may consult the context) on the remaining text
to obtain the DER payload, failing when either step fails. -/
def X509V3_EXT_nconf (lookupNid : List Nat → Option Nat)
    (interp : X509V3_CTX → Nat → List Nat → Option (List Nat))
    (ctx : X509V3_CTX) (type_name vwc : List Nat) : Option EncodedExt :=
  let crit := criticalMarker.isPrefixOf vwc
  let v := if crit then vwc.drop criticalMarker.length else vwc
  match lookupNid type_name with
  | none => none
  | some nid =>
    match interp ctx nid v with
    | none => none
    | some payload => some ⟨nid, crit, payload⟩

/-- Outcome of `crypto_X509Extension_New`: either the constructed object, or
failure recording whether a Python exception was set (`errSet`) and the
object handed to `Py_XDECREF` on the way out, if any. -/
inductive NewResult where
  | ok (obj : X509ExtensionObj)
  | fail (errSet : Bool) (decrefed : Option X509ExtensionObj)
deriving DecidableEq

/-- `crypto_X509Extension_New` (x509ext.c lines 100-182).  `allocOk` models
the success of `PyObject_New` (which sets a `MemoryError` itself when it
fails), `mallocOk` the success of the `malloc` of the intermediate value
buffer, and `m0` the uninitialised contents of that buffer.  On the
`critical_malloc_error` path the code jumps past
`exception_from_error_queue`, so no exception is set there; on the
`nconf_error` path the exception is set from the library error queue.  In
both failure paths the object passed to `Py_XDECREF` still has its
`dealloc` flag at 0; the flag is set to 1 only immediately before the
successful return. -/
def crypto_X509Extension_New (lookupNid : List Nat → Option Nat)
    (interp : X509V3_CTX → Nat → List Nat → Option (List Nat))
    (type_name : List Nat) (critical : Int) (value : List Nat)
    (subject issuer : Option Nat) (allocOk mallocOk : Bool) (m0 : Mem) :
    NewResult :=
  let ctx : X509V3_CTX := ⟨subject, issuer⟩
  if allocOk = false then
    .fail true none
  else if mallocOk = false then
    .fail false (some ⟨none, false⟩)
  else
    let vwc := readCStr (buildValueWithCritical m0 critical value) 0
        (criticalMarker.length + value.length + 1)
    match X509V3_EXT_nconf lookupNid interp ctx type_name vwc with
    | none => .fail true (some ⟨none, false⟩)
    | some ext => .ok ⟨some ext, true⟩

/-- `crypto_X509Extension_dealloc` (x509ext.c lines 229-237): returns whether
`X509_EXTENSION_free` is invoked on the stored pointer — exactly when the
`dealloc` ownership flag is set. -/
def crypto_X509Extension_dealloc (self : X509ExtensionObj) : Bool :=
  self.dealloc

/-- A decoded `GENERAL_NAME` entry: the three directly printed kinds carry
their length-exact `ASN1_STRING` bytes; every other kind (other-name, X.400,
EDI-party, directory name, IP address, registered ID) is grouped as `other`
carrying the name's raw bytes handed to `GENERAL_NAME_print`. -/
inductive GeneralName where
  | email (rfc822Name : List Nat)
  | dns (dNSName : List Nat)
  | uri (uniformResourceIdentifier : List Nat)
  | other (raw : List Nat)
deriving DecidableEq

/-- `ASN1_STRING_data`: the byte pointer of an `ASN1_STRING`. -/
def ASN1_STRING_data (s : List Nat) : List Nat := s

/-- `ASN1_STRING_length`: the stored length of an `ASN1_STRING`. -/
def ASN1_STRING_length (s : List Nat) : Nat := s.length

/-- `BIO_puts`: append a NUL-free literal to the memory BIO. -/
def BIO_puts (bio : List Nat) (s : String) : List Nat := bio ++ strBytes s

/-- `BIO_write`: append exactly `len` bytes of `buf` to the memory BIO,
regardless of NUL bytes. -/
def BIO_write (bio buf : List Nat) (len : Nat) : List Nat := bio ++ buf.take len

/-- One iteration body of the subjectAltName loop (x509ext.c lines 273-297):
`email`/`DNS`/`URI` names get their literal prefix via `BIO_puts` followed by
a `BIO_write` of `ASN1_STRING_data` with `ASN1_STRING_length`; every other
type delegates to the library's `GENERAL_NAME_print` (`gnPrint`). -/
def writeGeneralName (gnPrint : List Nat → List Nat) (bio : List Nat) :
    GeneralName → List Nat
  | .email as =>
    BIO_write (BIO_puts bio "email:") (ASN1_STRING_data as) (ASN1_STRING_length as)
  | .dns as =>
    BIO_write (BIO_puts bio "DNS:") (ASN1_STRING_data as) (ASN1_STRING_length as)
  | .uri as =>
    BIO_write (BIO_puts bio "URI:") (ASN1_STRING_data as) (ASN1_STRING_length as)
  | .other raw => bio ++ gnPrint raw

/-- The subjectAltName rendering loop (x509ext.c lines 268-302): write each
name in order, with `BIO_puts(bio, ", ")` after every element except the
last. -/
def sanLoop (gnPrint : List Nat → List Nat) (bio : List Nat) :
    List GeneralName → List Nat
  | [] => bio
  | [n] => writeGeneralName gnPrint bio n
  | n :: n2 :: rest =>
    sanLoop gnPrint (BIO_puts (writeGeneralName gnPrint bio n) ", ") (n2 :: rest)

/-- The part of the library's `X509V3_EXT_METHOD` descriptor this code uses:
its ASN.1 decoder from the raw payload octets to the general-name sequence
(covering both the `method->it` template route and the `method->d2i`
route). -/
structure X509V3_EXT_METHOD where
  d2i : List Nat → Option (List GeneralName)

/-- `crypto_X509Extension_str_subjectAltName` (x509ext.c lines 244-306):
look up the extension's method descriptor (`extGet`, i.e. `X509V3_EXT_get`),
decode the raw value into general names, and render them with `sanLoop`;
returns the C result code paired with the BIO contents.  Both failure exits
return -1 before anything is written to the BIO. -/
def crypto_X509Extension_str_subjectAltName
    (extGet : EncodedExt → Option X509V3_EXT_METHOD)
    (gnPrint : List Nat → List Nat)
    (e : EncodedExt) (bio : List Nat) : Int × List Nat :=
  match extGet e with
  | none => (-1, bio)
  | some m =>
    match m.d2i e.value with
    | none => (-1, bio)
    | some names => (0, sanLoop gnPrint bio names)

/-- OpenSSL's `NID_subject_alt_name`. -/
def NID_subject_alt_name : Nat := 85

/-- `crypto_X509Extension_str` (x509ext.c lines 311-336): dispatch on the
extension's NID — the secure subjectAltName path when it equals
`NID_subject_alt_name` (error when that path returns -1), otherwise
`X509V3_EXT_print(bio, ext, 0, 0)` (`extPrint`, error when it returns 0,
here `none`).  The result is the BIO contents; `none` models raising
`crypto_Error` from the library error queue. -/
def crypto_X509Extension_str
    (extGet : EncodedExt → Option X509V3_EXT_METHOD)
    (gnPrint : List Nat → List Nat)
    (extPrint : EncodedExt → Nat → Nat → Option (List Nat))
    (self : X509ExtensionObj) : Option (List Nat) :=
  match self.x509_extension with
  | none => none
  | some e =>
    if e.nid = NID_subject_alt_name then
      match crypto_X509Extension_str_subjectAltName extGet gnPrint e [] with
      | (r, buf) => if r = -1 then none else some buf
    else
      extPrint e 0 0

/-! ## Concrete instantiations of the external library routines, used to
exercise the embedded functions on closed inputs -/

/-- A registry that resolves every short name to NID 87 (basicConstraints). -/
def testLookupNid (_ : List Nat) : Option Nat := some 87

/-- A value-syntax interpreter that encodes the given text as the payload. -/
def testInterp (_ : X509V3_CTX) (_ : Nat) (v : List Nat) : Option (List Nat) :=
  some v

/-- Zero-initialised buffer contents. -/
def mem0 : Mem := fun _ => 0

/-- A method descriptor whose decoder yields one DNS name holding the raw
payload bytes. -/
def testMethod : X509V3_EXT_METHOD :=
  ⟨fun bytes => some [GeneralName.dns bytes]⟩

/-- A method table that registers `testMethod` for every extension. -/
def testExtGet (_ : EncodedExt) : Option X509V3_EXT_METHOD := some testMethod

/-- A method descriptor whose decoder rejects every payload. -/
def failMethod : X509V3_EXT_METHOD := ⟨fun _ => none⟩

/-- A method table that registers the always-failing decoder. -/
def failExtGet (_ : EncodedExt) : Option X509V3_EXT_METHOD := some failMethod

/-- A method descriptor whose decoder yields the empty name sequence. -/
def emptyMethod : X509V3_EXT_METHOD := ⟨fun _ => some []⟩

/-- A method table that registers the empty-sequence decoder. -/
def emptyExtGet (_ : EncodedExt) : Option X509V3_EXT_METHOD := some emptyMethod

/-- A generic single-name printer that emits the raw bytes unchanged. -/
def testGnPrint (raw : List Nat) : List Nat := raw

/-- A generic extension printer that records the flags it was handed. -/
def testExtPrint (_ : EncodedExt) (flag indent : Nat) : Option (List Nat) :=
  some [flag, indent]

/-- A subjectAltName extension whose payload contains an embedded NUL byte
followed by further bytes. -/
def e_san : EncodedExt := ⟨85, false, [97, 0, 98]⟩

/-- A constructed object holding `e_san`. -/
def obj_san : X509ExtensionObj := ⟨some e_san, true⟩

/-- An extension with a non-subjectAltName NID. -/
def e_gen : EncodedExt := ⟨90, false, [1, 2]⟩

/-- A constructed object holding `e_gen`. -/
def obj_gen : X509ExtensionObj := ⟨some e_gen, true⟩

/-! ## Memory-model lemmas for the constructor's value buffer -/

/-- `writeBytes` leaves every address below the write window unchanged. -/
theorem writeBytes_lt (s : List Nat) :
    ∀ (m : Mem) (off i : Nat), i < off → writeBytes m off s i = m i := by
  induction s with
  | nil => intro m off i _; rfl
  | cons b bs ih =>
    intro m off i h
    have hi : i ≠ off := Nat.ne_of_lt h
    calc writeBytes (fun j => if j = off then b else m j) (off + 1) bs i
        = (fun j => if j = off then b else m j) i :=
          ih _ (off + 1) i (Nat.lt_succ_of_lt h)
      _ = m i := by simp [hi]

/-- Reading back a `strcpy`-written NUL-free string recovers it exactly, for
any fuel at least one past its length. -/
theorem readCStr_strcpy (s : List Nat) (hs : 0 ∉ s) :
    ∀ (m : Mem) (off fuel : Nat), s.length + 1 ≤ fuel →
      readCStr (writeBytes m off (s ++ [0])) off fuel = s := by
  induction s with
  | nil =>
    intro m off fuel hf
    obtain ⟨f, rfl⟩ : ∃ f, fuel = f + 1 := ⟨fuel - 1, by omega⟩
    simp [readCStr, writeBytes]
  | cons b bs ih =>
    intro m off fuel hf
    obtain ⟨f, rfl⟩ : ∃ f, fuel = f + 1 := ⟨fuel - 1, by omega⟩
    have hb : b ≠ 0 := fun h => hs (h ▸ List.mem_cons_self b bs)
    have hbs : 0 ∉ bs := fun h => hs (List.mem_cons_of_mem b h)
    have hcell :
        writeBytes (fun j => if j = off then b else m j) (off + 1) (bs ++ [0]) off = b := by
      rw [writeBytes_lt _ _ _ _ (Nat.lt_succ_self off)]; simp
    show readCStr (writeBytes (fun j => if j = off then b else m j) (off + 1) (bs ++ [0]))
        off (f + 1) = b :: bs
    rw [readCStr, hcell, if_neg hb,
      ih hbs _ (off + 1) f (by simpa using hf)]

/-- Overwriting the same address twice keeps only the second write. -/
theorem update_update (m : Mem) (off b x : Nat) :
    (fun i => if i = off then x else (fun j => if j = off then b else m j) i)
      = fun i => if i = off then x else m i := by
  funext i
  by_cases h : i = off <;> simp [h]

/-- A second `strcpy` starting at the first string's terminating NUL splices
the two strings: exactly the overlap `crypto_X509Extension_New` relies on
when it copies `value` at offset `strlen("critical,")`. -/
theorem strcpy_strcpy (a v : List Nat) :
    ∀ (m : Mem) (off : Nat),
      writeBytes (writeBytes m off (a ++ [0])) (off + a.length) (v ++ [0])
        = writeBytes m off (a ++ (v ++ [0])) := by
  induction a with
  | nil =>
    intro m off
    show writeBytes (writeBytes m off [0]) (off + 0) (v ++ [0])
        = writeBytes m off (v ++ [0])
    rw [Nat.add_zero]
    cases v with
    | nil =>
      show writeBytes (writeBytes m off [0]) off [0] = writeBytes m off [0]
      show writeBytes
          (fun i => if i = off then 0 else (fun j => if j = off then 0 else m j) i)
          (off + 1) [] = writeBytes m off [0]
      rw [update_update]
      rfl
    | cons vh vt =>
      show writeBytes
          (fun i => if i = off then vh else (fun j => if j = off then 0 else m j) i)
          (off + 1) (vt ++ [0])
        = writeBytes (fun i => if i = off then vh else m i) (off + 1) (vt ++ [0])
      rw [update_update]
  | cons c a ih =>
    intro m off
    have harith : off + (c :: a).length = (off + 1) + a.length := by
      simp [List.length_cons]; omega
    show writeBytes
        (writeBytes (fun i => if i = off then c else m i) (off + 1) (a ++ [0]))
        (off + (c :: a).length) (v ++ [0])
      = writeBytes (fun i => if i = off then c else m i) (off + 1) (a ++ (v ++ [0]))
    rw [harith, ih (fun i => if i = off then c else m i) (off + 1)]

/-- The NUL-terminated string the constructor reads back from its value
buffer is the critical-marker concatenation: `"critical," ++ value` when
`critical` is nonzero, `value` unchanged otherwise. -/
theorem readCStr_buildValueWithCritical (m0 : Mem) (critical : Int)
    (value : List Nat) (hv : 0 ∉ value) :
    readCStr (buildValueWithCritical m0 critical value) 0
        (criticalMarker.length + value.length + 1)
      = (if critical ≠ 0 then criticalMarker ++ value else value) := by
  have hmarker : (0 : Nat) ∉ criticalMarker := by decide
  by_cases hc : critical ≠ 0
  · rw [if_pos hc]
    simp only [buildValueWithCritical, if_pos hc, strcpy]
    have h2 := strcpy_strcpy criticalMarker value m0 0
    rw [Nat.zero_add] at h2
    rw [h2, show criticalMarker ++ (value ++ [0]) = (criticalMarker ++ value) ++ [0]
      from (List.append_assoc _ _ _).symm]
    have hmem : (0 : Nat) ∉ criticalMarker ++ value := by
      intro h
      rcases List.mem_append.mp h with h | h
      · exact hmarker h
      · exact hv h
    exact readCStr_strcpy (criticalMarker ++ value) hmem m0 0 _
      (by simp [List.length_append])
  · rw [if_neg hc]
    simp only [buildValueWithCritical, if_neg hc, strcpy]
    exact readCStr_strcpy value hv m0 0 _ (by omega)

/-- A list is a Boolean-test prefix of itself followed by anything. -/
theorem isPrefixOf_append (a b : List Nat) : a.isPrefixOf (a ++ b) = true := by
  induction a with
  | nil => simp [List.isPrefixOf]
  | cons c a ih => simp [List.isPrefixOf, ih]

/-! ## Lemmas on the subjectAltName rendering loop -/

/-- Writing one name only appends to the BIO. -/
theorem writeGeneralName_bio (gnPrint : List Nat → List Nat) (bio : List Nat)
    (n : GeneralName) :
    writeGeneralName gnPrint bio n = bio ++ writeGeneralName gnPrint [] n := by
  cases n <;>
    simp [writeGeneralName, BIO_write, BIO_puts, ASN1_STRING_data,
      ASN1_STRING_length, List.append_assoc]

/-- The rendering loop only appends to the BIO it is given. -/
theorem sanLoop_bio (gnPrint : List Nat → List Nat) :
    ∀ (names : List GeneralName) (bio : List Nat),
      sanLoop gnPrint bio names = bio ++ sanLoop gnPrint [] names := by
  intro names
  induction names with
  | nil => intro bio; simp [sanLoop]
  | cons n rest ih =>
    intro bio
    cases rest with
    | nil => simpa [sanLoop] using writeGeneralName_bio gnPrint bio n
    | cons n2 rest2 =>
      show sanLoop gnPrint (BIO_puts (writeGeneralName gnPrint bio n) ", ") (n2 :: rest2)
          = bio ++ sanLoop gnPrint (BIO_puts (writeGeneralName gnPrint [] n) ", ") (n2 :: rest2)
      rw [ih (BIO_puts (writeGeneralName gnPrint bio n) ", "),
        ih (BIO_puts (writeGeneralName gnPrint [] n) ", ")]
      simp [BIO_puts, writeGeneralName_bio gnPrint bio n, List.append_assoc]

/-- `List.intercalate` unfolds one separator step on a two-or-more list. -/
theorem intercalate_cons_cons (sep x y : List Nat) (tl : List (List Nat)) :
    List.intercalate sep (x :: y :: tl) = x ++ sep ++ List.intercalate sep (y :: tl) := by
  simp [List.intercalate, List.append_assoc]

/-- The rendering loop is the separator-interleaved concatenation of the
per-name renderings, in order. -/
theorem sanLoop_intercalate (gnPrint : List Nat → List Nat) :
    ∀ (names : List GeneralName) (bio : List Nat),
      sanLoop gnPrint bio names
        = bio ++ List.intercalate (strBytes ", ")
            (names.map (writeGeneralName gnPrint [])) := by
  intro names
  induction names with
  | nil => intro bio; simp [sanLoop, List.intercalate]
  | cons n rest ih =>
    intro bio
    cases rest with
    | nil =>
      simp [sanLoop, List.intercalate, writeGeneralName_bio gnPrint bio n]
    | cons n2 rest2 =>
      show sanLoop gnPrint (BIO_puts (writeGeneralName gnPrint bio n) ", ") (n2 :: rest2) = _
      rw [ih (BIO_puts (writeGeneralName gnPrint bio n) ", ")]
      simp only [List.map_cons]
      rw [intercalate_cons_cons]
      simp [BIO_puts, writeGeneralName_bio gnPrint bio n, List.append_assoc]

/-- Each member's rendering occurs inside the loop's output. -/
theorem writeGeneralName_infix_sanLoop (gnPrint : List Nat → List Nat) :
    ∀ (names : List GeneralName) (n : GeneralName), n ∈ names →
      writeGeneralName gnPrint [] n <:+: sanLoop gnPrint [] names := by
  intro names
  induction names with
  | nil => intro n h; cases h
  | cons hd tl ih =>
    intro n h
    rcases List.mem_cons.mp h with rfl | h
    · cases tl with
      | nil => exact ⟨[], [], by simp [sanLoop]⟩
      | cons n2 rest =>
        refine ⟨[], strBytes ", " ++ sanLoop gnPrint [] (n2 :: rest), ?_⟩
        show [] ++ writeGeneralName gnPrint [] n
            ++ (strBytes ", " ++ sanLoop gnPrint [] (n2 :: rest))
          = sanLoop gnPrint (BIO_puts (writeGeneralName gnPrint [] n) ", ") (n2 :: rest)
        rw [sanLoop_bio gnPrint (n2 :: rest) (BIO_puts (writeGeneralName gnPrint [] n) ", ")]
        simp [BIO_puts, List.append_assoc]
    · cases tl with
      | nil => cases h
      | cons n2 rest =>
        obtain ⟨s, t, hst⟩ := ih n h
        refine ⟨BIO_puts (writeGeneralName gnPrint [] hd) ", " ++ s, t, ?_⟩
        show _ = sanLoop gnPrint (BIO_puts (writeGeneralName gnPrint [] hd) ", ") (n2 :: rest)
        rw [sanLoop_bio gnPrint (n2 :: rest), ← hst]
        simp [List.append_assoc]

/-! ## Claim theorems -/

/-- C3: for every value string (including the empty string) and every
critical flag, the textual value `crypto_X509Extension_New` passes to
`X509V3_EXT_nconf` — the string it builds with `strcpy` into the `malloc`ed
buffer and reads back NUL-terminated — is exactly `"critical," ++ value`
when `critical` is nonzero and exactly `value` unchanged otherwise; on the
reached code path the constructor hands precisely that string to the
interpreter. -/
theorem New_passes_critical_prefixed_value (m0 : Mem) (critical : Int)
    (value : List Nat) (hv : 0 ∉ value) :
    readCStr (buildValueWithCritical m0 critical value) 0
        (criticalMarker.length + value.length + 1)
      = (if critical ≠ 0 then criticalMarker ++ value else value)
    ∧ ∀ lookupNid interp type_name subject issuer,
        crypto_X509Extension_New lookupNid interp type_name critical value
            subject issuer true true m0
          = match X509V3_EXT_nconf lookupNid interp ⟨subject, issuer⟩ type_name
              (if critical ≠ 0 then criticalMarker ++ value else value) with
            | none => NewResult.fail true (some ⟨none, false⟩)
            | some ext => NewResult.ok ⟨some ext, true⟩ := by
  have hread := readCStr_buildValueWithCritical m0 critical value hv
  refine ⟨hread, ?_⟩
  intro lookupNid interp type_name subject issuer
  simp only [crypto_X509Extension_New, hread]
  rfl

/-- C3 witness: the empty value with the critical flag set. -/
theorem New_passes_critical_prefixed_value_witness :
    (0 : Nat) ∉ ([] : List Nat)
    ∧ readCStr (buildValueWithCritical (fun _ => 7) 1 []) 0
        (criticalMarker.length + List.length ([] : List Nat) + 1)
      = (if (1 : Int) ≠ 0 then criticalMarker ++ [] else []) :=
  ⟨by decide, (New_passes_critical_prefixed_value (fun _ => 7) 1 [] (by decide)).1⟩

/-- C4 (amended): for every value string that does not itself begin with the
literal `critical,` marker, a successful construction stores the requested
criticality in the encoded structure, and `get_critical` re-derives it from
that structure (via `X509_EXTENSION_get_critical`), returning exactly the
requested boolean. -/
theorem get_critical_of_New (lookupNid : List Nat → Option Nat)
    (interp : X509V3_CTX → Nat → List Nat → Option (List Nat))
    (type_name : List Nat) (subject issuer : Option Nat) (m0 : Mem)
    (critical : Bool) (value : List Nat) (hv : 0 ∉ value)
    (hnp : criticalMarker.isPrefixOf value = false) (obj : X509ExtensionObj)
    (hok : crypto_X509Extension_New lookupNid interp type_name
        (if critical then 1 else 0) value subject issuer true true m0
      = NewResult.ok obj) :
    crypto_X509Extension_get_critical obj = some (if critical then 1 else 0)
    ∧ ∃ e, obj.x509_extension = some e
        ∧ crypto_X509Extension_get_critical obj
          = some (X509_EXTENSION_get_critical e) := by
  cases critical with
  | true =>
    have hread := readCStr_buildValueWithCritical m0 1 value hv
    rw [if_pos (by decide : (1 : Int) ≠ 0)] at hread
    simp only [crypto_X509Extension_New] at hok
    norm_num at hok
    rw [hread] at hok
    simp only [X509V3_EXT_nconf, isPrefixOf_append, List.drop_left] at hok
    norm_num at hok
    split at hok
    · cases hok
    · rename_i ext heq
      cases hok
      split at heq
      · cases heq
      · split at heq
        · cases heq
        · cases heq
          exact ⟨rfl, ⟨_, rfl, rfl⟩⟩
  | false =>
    have hread := readCStr_buildValueWithCritical m0 0 value hv
    rw [if_neg (by decide : ¬((0 : Int) ≠ 0))] at hread
    simp only [crypto_X509Extension_New] at hok
    norm_num at hok
    rw [hread] at hok
    simp only [X509V3_EXT_nconf, hnp] at hok
    norm_num at hok
    split at hok
    · cases hok
    · rename_i ext heq
      cases hok
      split at heq
      · cases heq
      · split at heq
        · cases heq
        · cases heq
          exact ⟨rfl, ⟨_, rfl, rfl⟩⟩

/-- C4 counterexample: with the critical flag false but a value that itself
starts with the `critical,` marker, construction succeeds and
`get_critical` reports 1, not the requested 0 — the marker recognition in
the value mini-language overrides the flag. -/
theorem get_critical_counterexample :
    crypto_X509Extension_New testLookupNid testInterp
        (strBytes "basicConstraints") 0 (strBytes "critical,CA:TRUE")
        none none true true mem0
      = NewResult.ok ⟨some ⟨87, true, strBytes "CA:TRUE"⟩, true⟩
    ∧ crypto_X509Extension_get_critical ⟨some ⟨87, true, strBytes "CA:TRUE"⟩, true⟩
      = some 1
    ∧ ¬((1 : Int) = 0) := by decide

/-- C4 witness: a marker-free value constructed critical. -/
theorem get_critical_of_New_witness :
    ((0 : Nat) ∉ strBytes "CA:TRUE")
    ∧ criticalMarker.isPrefixOf (strBytes "CA:TRUE") = false
    ∧ crypto_X509Extension_New testLookupNid testInterp
        (strBytes "basicConstraints") (if true then 1 else 0)
        (strBytes "CA:TRUE") none none true true mem0
      = NewResult.ok ⟨some ⟨87, true, strBytes "CA:TRUE"⟩, true⟩
    ∧ (crypto_X509Extension_get_critical ⟨some ⟨87, true, strBytes "CA:TRUE"⟩, true⟩
        = some (if true then 1 else 0)
      ∧ ∃ e, (⟨some ⟨87, true, strBytes "CA:TRUE"⟩, true⟩ :
            X509ExtensionObj).x509_extension = some e
          ∧ crypto_X509Extension_get_critical
              ⟨some ⟨87, true, strBytes "CA:TRUE"⟩, true⟩
            = some (X509_EXTENSION_get_critical e)) :=
  ⟨by decide, by decide, by decide,
    get_critical_of_New testLookupNid testInterp (strBytes "basicConstraints")
      none none mem0 true (strBytes "CA:TRUE") (by decide) (by decide) _ (by decide)⟩

/-- C5: on the `critical_malloc_error` path (allocation failure while
building the critical-prefixed value buffer) the constructor jumps past
`exception_from_error_queue`: it returns NULL with no exception set
(`errSet = false`), so the failure is not surfaced as an Error carrying the
library's diagnostic detail, although no Extension is produced. -/
theorem New_malloc_failure_sets_no_error :
    crypto_X509Extension_New testLookupNid testInterp
        (strBytes "basicConstraints") 0 (strBytes "CA:TRUE")
        none none true false mem0
      = NewResult.fail false (some ⟨none, false⟩) := by decide

/-- C10: on every failing path of the constructor the object handed to
`Py_XDECREF` still has its ownership flag false, so its deallocator does not
invoke `X509_EXTENSION_free`; only a successful construction returns an
object with the flag set; and the deallocator never frees the encoded
structure of any object whose flag is false. -/
theorem dealloc_flag_discipline (lookupNid : List Nat → Option Nat)
    (interp : X509V3_CTX → Nat → List Nat → Option (List Nat))
    (type_name : List Nat) (critical : Int) (value : List Nat)
    (subject issuer : Option Nat) (allocOk mallocOk : Bool) (m0 : Mem) :
    (∀ errSet fobj,
        crypto_X509Extension_New lookupNid interp type_name critical value
            subject issuer allocOk mallocOk m0
          = NewResult.fail errSet (some fobj) →
        fobj.dealloc = false ∧ crypto_X509Extension_dealloc fobj = false)
    ∧ (∀ obj,
        crypto_X509Extension_New lookupNid interp type_name critical value
            subject issuer allocOk mallocOk m0
          = NewResult.ok obj →
        obj.dealloc = true)
    ∧ ∀ self : X509ExtensionObj, self.dealloc = false →
        crypto_X509Extension_dealloc self = false := by
  refine ⟨?_, ?_, ?_⟩
  · intro errSet fobj h
    simp only [crypto_X509Extension_New] at h
    split at h
    · cases h
    · split at h
      · cases h
        exact ⟨rfl, rfl⟩
      · split at h
        · cases h
          exact ⟨rfl, rfl⟩
        · cases h
  · intro obj h
    simp only [crypto_X509Extension_New] at h
    split at h
    · cases h
    · split at h
      · cases h
      · split at h
        · cases h
        · cases h
          rfl
  · intro self h
    simpa [crypto_X509Extension_dealloc] using h

/-- C1: whenever the decoded general-name sequence contains an email, DNS or
URI entry carrying bytes `as`, the subjectAltName formatter's output contains
the whole length-indicated byte range `as` — in particular, when `as` has an
embedded NUL byte, everything after the NUL is still written, never truncated
the way a NUL-terminated-string printer would. -/
theorem san_writes_full_byte_range
    (extGet : EncodedExt → Option X509V3_EXT_METHOD)
    (gnPrint : List Nat → List Nat) (e : EncodedExt) (m : X509V3_EXT_METHOD)
    (names : List GeneralName) (n : GeneralName) (as : List Nat)
    (hm : extGet e = some m) (hd : m.d2i e.value = some names) (hmem : n ∈ names)
    (ht : n = GeneralName.email as ∨ n = GeneralName.dns as
      ∨ n = GeneralName.uri as) :
    as <:+: (crypto_X509Extension_str_subjectAltName extGet gnPrint e []).2
    ∧ ∀ u v, as = u ++ 0 :: v →
        u ++ 0 :: v <:+:
          (crypto_X509Extension_str_subjectAltName extGet gnPrint e []).2 := by
  have hout : (crypto_X509Extension_str_subjectAltName extGet gnPrint e []).2
      = sanLoop gnPrint [] names := by
    simp [crypto_X509Extension_str_subjectAltName, hm, hd]
  have h1 : as <:+: writeGeneralName gnPrint [] n := by
    rcases ht with h | h | h
    · exact h ▸ ⟨strBytes "email:", [],
        by simp [writeGeneralName, BIO_write, BIO_puts, ASN1_STRING_data,
          ASN1_STRING_length]⟩
    · exact h ▸ ⟨strBytes "DNS:", [],
        by simp [writeGeneralName, BIO_write, BIO_puts, ASN1_STRING_data,
          ASN1_STRING_length]⟩
    · exact h ▸ ⟨strBytes "URI:", [],
        by simp [writeGeneralName, BIO_write, BIO_puts, ASN1_STRING_data,
          ASN1_STRING_length]⟩
  have h2 := writeGeneralName_infix_sanLoop gnPrint names n hmem
  constructor
  · rw [hout]; exact h1.trans h2
  · intro u v huv
    rw [hout]
    exact huv ▸ (h1.trans h2)

/-- C1 witness: a DNS name `[97, 0, 98]` with an embedded NUL byte. -/
theorem san_writes_full_byte_range_witness :
    testExtGet e_san = some testMethod
    ∧ testMethod.d2i e_san.value = some [GeneralName.dns [97, 0, 98]]
    ∧ GeneralName.dns [97, 0, 98] ∈ [GeneralName.dns [97, 0, 98]]
    ∧ ([97, 0, 98] <:+:
        (crypto_X509Extension_str_subjectAltName testExtGet testGnPrint e_san []).2
      ∧ ∀ u v, [97, 0, 98] = u ++ 0 :: v →
          u ++ 0 :: v <:+:
            (crypto_X509Extension_str_subjectAltName testExtGet testGnPrint e_san []).2) :=
  ⟨rfl, rfl, by decide,
    san_writes_full_byte_range testExtGet testGnPrint e_san testMethod
      [GeneralName.dns [97, 0, 98]] (GeneralName.dns [97, 0, 98]) [97, 0, 98]
      rfl rfl (by decide) (Or.inr (Or.inl rfl))⟩

/-- C2: the subjectAltName formatter renders the decoded entries in their
original order — email entries with literal prefix `email:`, DNS entries with
`DNS:`, URI entries with `URI:`, every other type via the library's generic
single-name printer — joined by the literal separator `", "` between
successive entries and none after the last; in particular the example list
renders as exactly
`email:a@example.com, DNS:example.com, URI:https://example.com`. -/
theorem san_order_prefixes_separators (gnPrint : List Nat → List Nat) :
    (∀ (bio : List Nat) (names : List GeneralName),
        sanLoop gnPrint bio names
          = bio ++ List.intercalate (strBytes ", ")
              (names.map (writeGeneralName gnPrint [])))
    ∧ (∀ bio as, writeGeneralName gnPrint bio (GeneralName.email as)
        = bio ++ strBytes "email:" ++ as)
    ∧ (∀ bio as, writeGeneralName gnPrint bio (GeneralName.dns as)
        = bio ++ strBytes "DNS:" ++ as)
    ∧ (∀ bio as, writeGeneralName gnPrint bio (GeneralName.uri as)
        = bio ++ strBytes "URI:" ++ as)
    ∧ (∀ bio raw, writeGeneralName gnPrint bio (GeneralName.other raw)
        = bio ++ gnPrint raw)
    ∧ sanLoop gnPrint []
        [GeneralName.email (strBytes "a@example.com"),
         GeneralName.dns (strBytes "example.com"),
         GeneralName.uri (strBytes "https://example.com")]
      = strBytes "email:a@example.com, DNS:example.com, URI:https://example.com" := by
  refine ⟨fun bio names => sanLoop_intercalate gnPrint names bio, ?_, ?_, ?_, ?_, ?_⟩
  · intro bio as
    simp [writeGeneralName, BIO_write, BIO_puts, ASN1_STRING_data,
      ASN1_STRING_length, List.append_assoc]
  · intro bio as
    simp [writeGeneralName, BIO_write, BIO_puts, ASN1_STRING_data,
      ASN1_STRING_length, List.append_assoc]
  · intro bio as
    simp [writeGeneralName, BIO_write, BIO_puts, ASN1_STRING_data,
      ASN1_STRING_length, List.append_assoc]
  · intro bio raw
    simp [writeGeneralName]
  · rfl

/-- C6: the formatter dispatches to the secure subjectAltName path exactly
when the extension's NID is `NID_subject_alt_name`, and otherwise delegates
to the library's generic printer invoked with flag 0 and indentation 0. -/
theorem str_dispatch
    (extGet : EncodedExt → Option X509V3_EXT_METHOD)
    (gnPrint : List Nat → List Nat)
    (extPrint : EncodedExt → Nat → Nat → Option (List Nat))
    (self : X509ExtensionObj) (e : EncodedExt)
    (h : self.x509_extension = some e) :
    (e.nid = NID_subject_alt_name →
      crypto_X509Extension_str extGet gnPrint extPrint self
        = (if (crypto_X509Extension_str_subjectAltName extGet gnPrint e []).1 = -1
            then none
            else some (crypto_X509Extension_str_subjectAltName extGet gnPrint e []).2))
    ∧ (e.nid ≠ NID_subject_alt_name →
      crypto_X509Extension_str extGet gnPrint extPrint self = extPrint e 0 0) := by
  constructor
  · intro hnid
    simp only [crypto_X509Extension_str, h]
    rw [if_pos hnid]
  · intro hnid
    simp only [crypto_X509Extension_str, h]
    rw [if_neg hnid]

/-- C6 witness: a non-subjectAltName extension goes to the generic printer
with both flags zero. -/
theorem str_dispatch_witness :
    obj_gen.x509_extension = some e_gen
    ∧ e_gen.nid ≠ NID_subject_alt_name
    ∧ crypto_X509Extension_str testExtGet testGnPrint testExtPrint obj_gen
      = testExtPrint e_gen 0 0 :=
  ⟨rfl, by decide,
    (str_dispatch testExtGet testGnPrint testExtPrint obj_gen e_gen rfl).2
      (by decide)⟩

/-- C7: for a subjectAltName extension, formatting fails (raises) exactly
when no method descriptor is registered for the OID or the decoder yields no
general-name sequence, and on every failing run the secure path leaves the
BIO untouched — no partial text is surfaced. -/
theorem san_failure_conditions
    (extGet : EncodedExt → Option X509V3_EXT_METHOD)
    (gnPrint : List Nat → List Nat)
    (extPrint : EncodedExt → Nat → Nat → Option (List Nat))
    (self : X509ExtensionObj) (e : EncodedExt)
    (h : self.x509_extension = some e) (hn : e.nid = NID_subject_alt_name) :
    (crypto_X509Extension_str extGet gnPrint extPrint self = none
      ↔ extGet e = none ∨ ∃ m, extGet e = some m ∧ m.d2i e.value = none)
    ∧ ∀ bio, (crypto_X509Extension_str_subjectAltName extGet gnPrint e bio).1 = -1 →
        (crypto_X509Extension_str_subjectAltName extGet gnPrint e bio).2 = bio := by
  constructor
  · rcases hm : extGet e with _ | m
    · simp [crypto_X509Extension_str, h, hn,
        crypto_X509Extension_str_subjectAltName, hm]
    · rcases hd : m.d2i e.value with _ | names
      · simp [crypto_X509Extension_str, h, hn,
          crypto_X509Extension_str_subjectAltName, hm, hd]
      · simp [crypto_X509Extension_str, h, hn,
          crypto_X509Extension_str_subjectAltName, hm, hd]
  · intro bio hfail
    rcases hm : extGet e with _ | m
    · simp [crypto_X509Extension_str_subjectAltName, hm]
    · rcases hd : m.d2i e.value with _ | names
      · simp [crypto_X509Extension_str_subjectAltName, hm, hd]
      · exfalso
        simp [crypto_X509Extension_str_subjectAltName, hm, hd] at hfail

/-- C7 witness: a registered method whose decoder rejects the payload makes
formatting fail. -/
theorem san_failure_conditions_witness :
    obj_san.x509_extension = some e_san
    ∧ e_san.nid = NID_subject_alt_name
    ∧ crypto_X509Extension_str failExtGet testGnPrint testExtPrint obj_san = none :=
  ⟨rfl, rfl,
    (san_failure_conditions failExtGet testGnPrint testExtPrint obj_san e_san
        rfl rfl).1.mpr (Or.inr ⟨failMethod, rfl, rfl⟩)⟩

/-- C8: on every constructed Extension, `get_data` returns exactly the stored
payload octets at their stored length — embedded NUL bytes and the bytes
after them included — and never fails. -/
theorem get_data_length_exact (self : X509ExtensionObj) (e : EncodedExt)
    (h : self.x509_extension = some e) :
    crypto_X509Extension_get_data self = some e.value
    ∧ (∀ d, crypto_X509Extension_get_data self = some d →
        d.length = e.value.length)
    ∧ ∀ u v, e.value = u ++ 0 :: v →
        crypto_X509Extension_get_data self = some (u ++ 0 :: v) := by
  have h1 : crypto_X509Extension_get_data self = some e.value := by
    simp [crypto_X509Extension_get_data, h, PyBytes_FromStringAndSize,
      X509_EXTENSION_get_data]
  refine ⟨h1, ?_, ?_⟩
  · intro d hd
    rw [h1] at hd
    cases hd
    rfl
  · intro u v huv
    rw [h1, huv]

/-- C8 witness: a payload with an embedded NUL byte is returned whole. -/
theorem get_data_length_exact_witness :
    obj_san.x509_extension = some e_san
    ∧ (crypto_X509Extension_get_data obj_san = some e_san.value
      ∧ (∀ d, crypto_X509Extension_get_data obj_san = some d →
          d.length = e_san.value.length)
      ∧ ∀ u v, e_san.value = u ++ 0 :: v →
          crypto_X509Extension_get_data obj_san = some (u ++ 0 :: v)) :=
  ⟨rfl, get_data_length_exact obj_san e_san rfl⟩

/-- C9: a subjectAltName payload that decodes to the empty general-name
sequence formats successfully as the empty string — no text, no separator,
no error. -/
theorem san_empty_sequence_empty_string
    (extGet : EncodedExt → Option X509V3_EXT_METHOD)
    (gnPrint : List Nat → List Nat)
    (extPrint : EncodedExt → Nat → Nat → Option (List Nat))
    (self : X509ExtensionObj) (e : EncodedExt) (m : X509V3_EXT_METHOD)
    (h : self.x509_extension = some e) (hn : e.nid = NID_subject_alt_name)
    (hm : extGet e = some m) (hd : m.d2i e.value = some []) :
    crypto_X509Extension_str extGet gnPrint extPrint self = some []
    ∧ crypto_X509Extension_str_subjectAltName extGet gnPrint e [] = (0, []) := by
  have h2 : crypto_X509Extension_str_subjectAltName extGet gnPrint e [] = (0, []) := by
    simp [crypto_X509Extension_str_subjectAltName, hm, hd, sanLoop]
  refine ⟨?_, h2⟩
  simp [crypto_X509Extension_str, h, hn, h2]

/-- C9 witness: the empty-sequence decoder yields the empty string. -/
theorem san_empty_sequence_empty_string_witness :
    obj_san.x509_extension = some e_san
    ∧ e_san.nid = NID_subject_alt_name
    ∧ emptyExtGet e_san = some emptyMethod
    ∧ emptyMethod.d2i e_san.value = some []
    ∧ crypto_X509Extension_str emptyExtGet testGnPrint testExtPrint obj_san = some [] :=
  ⟨rfl, rfl, rfl, rfl,
    (san_empty_sequence_empty_string emptyExtGet testGnPrint testExtPrint obj_san
        e_san emptyMethod rfl rfl rfl rfl).1⟩

/-- C10 witness: a failed construction hands a flag-false object to the
deallocator, which frees nothing. -/
theorem dealloc_flag_discipline_witness :
    crypto_X509Extension_New testLookupNid testInterp (strBytes "keyUsage") 0
        (strBytes "digitalSignature") none none true false mem0
      = NewResult.fail false (some ⟨none, false⟩)
    ∧ ((⟨none, false⟩ : X509ExtensionObj).dealloc = false
      ∧ crypto_X509Extension_dealloc ⟨none, false⟩ = false) :=
  ⟨by decide,
    (dealloc_flag_discipline testLookupNid testInterp (strBytes "keyUsage") 0
        (strBytes "digitalSignature") none none true false mem0).1
      false ⟨none, false⟩ (by decide)⟩

end X509Ext
